import Mathlib

/-!
Verification of the CodeForge submission judging and checker pipeline.

The definitions below are shallow embeddings of the TypeScript source:
  - the checker closure `compare` inside `handleSubmit`
    (Problem Editor page, lines 240-278 of the non-SQL branch);
  - the rate limiter of `src/hooks/useRateLimit.ts`;
  - the execution strategies and service of
    `src/services/execution/ExecutionStrategy.ts`;
  - the per-test-case submission loop of `handleSubmit`;
  - the SQL adapter `runSql`, which is not part of the source tree and is
    modelled from the specification.

JavaScript machine doubles are modelled as exact rationals, JS strings as
Lean strings (code points standing for UTF-16 units, which agrees on the
Basic Multilingual Plane), and timestamps as naturals.
-/

namespace CodeForge

/-- Whitespace characters recognised by the embedding of JS `trim()` and
the regular expression `\s`, restricted to the ASCII range (the Unicode
space characters also matched by JS do not occur in any claim). -/
def isWsChar (c : Char) : Bool :=
  c = ' ' || c = '\t' || c = '\n' || c = '\r' || c = '\x0b' || c = '\x0c'

/-- Embedding of JS `String.prototype.trim()`: strip leading and trailing
whitespace characters. -/
def jsTrim (s : String) : String :=
  String.mk (((s.data.dropWhile isWsChar).reverse.dropWhile isWsChar).reverse)

/-- Embedding of JS `String.prototype.toLowerCase()`, restricted to ASCII
case folding (`Char.toLower`). -/
def jsToLower (s : String) : String :=
  String.map Char.toLower s

/-- Maximal runs of non-whitespace characters of a character list, in
order.  Implemented as a left fold carrying the finished tokens and the
(reversed) current run. -/
def nonWsTokens (cs : List Char) : List String :=
  let step := fun (acc : List String × List Char) (c : Char) =>
    if isWsChar c then
      (if acc.2 = [] then acc.1 else acc.1 ++ [String.mk acc.2.reverse], ([] : List Char))
    else
      (acc.1, c :: acc.2)
  let r := cs.foldl step ([], [])
  if r.2 = [] then r.1 else r.1 ++ [String.mk r.2.reverse]

/-- Embedding of the JS expression `s.trim().split(/\s+/)`.  After
trimming, a nonempty string splits into its maximal non-whitespace runs;
the empty string yields the singleton list containing the empty string
(JS `"".split(/\s+/)` is `[""]`). -/
def jsTrimSplit (s : String) : List String :=
  let t := jsTrim s
  if t = "" then [""] else nonWsTokens t.data

/-- Numeric value of a digit character in the given base (supports bases
up to 16 with both letter cases), or `none` when the character is not a
digit of that base. -/
def digitVal (base : Nat) (c : Char) : Option Nat :=
  let v :=
    if '0' ≤ c ∧ c ≤ '9' then some (c.toNat - 48)
    else if 'a' ≤ c ∧ c ≤ 'f' then some (c.toNat - 87)
    else if 'A' ≤ c ∧ c ≤ 'F' then some (c.toNat - 55)
    else none
  match v with
  | some d => if d < base then some d else none
  | none => none

/-- Parse a nonempty run of digits in the given base into a natural
number; `none` when the list is empty or contains a non-digit. -/
def parseNatBase (base : Nat) (cs : List Char) : Option Nat :=
  if cs = [] then none
  else
    cs.foldl
      (fun acc c =>
        match acc, digitVal base c with
        | some a, some d => some (a * base + d)
        | _, _ => none)
      (some 0)

/-- Split a character list into its leading run of decimal digits and the
remainder. -/
def splitDigits : List Char → List Char × List Char
  | [] => ([], [])
  | c :: cs =>
    if c.isDigit then
      let r := splitDigits cs
      (c :: r.1, r.2)
    else ([], c :: cs)

/-- Value of a list of decimal digit characters read left to right. -/
def digitsToNat (ds : List Char) : Nat :=
  ds.foldl (fun a c => a * 10 + (c.toNat - 48)) 0

/-- An exact rational value written as an explicit numerator and positive
denominator, not necessarily in lowest terms.  Machine doubles are
modelled by these exact values; the pair form keeps every arithmetic
operation of the embedding inside kernel-computable `Int` and `Nat`
arithmetic. -/
structure JsRat where
  num : Int
  den : Nat
  deriving DecidableEq, Repr

/-- The rational value denoted by a `JsRat` pair. -/
def JsRat.toRat (x : JsRat) : ℚ :=
  (x.num : ℚ) / (x.den : ℚ)

/-- Parse a JS decimal numeric literal (optional sign, integer part,
optional fraction, optional exponent) into an exact rational; `none` when
the character list is not such a literal. -/
def parseDecimal (cs : List Char) : Option JsRat :=
  let signRest : Int × List Char :=
    match cs with
    | '+' :: r => (1, r)
    | '-' :: r => (-1, r)
    | r => (1, r)
  let sign := signRest.1
  let ipSplit := splitDigits signRest.2
  let ip := ipSplit.1
  let fracRest : Option (List Char) × List Char :=
    match ipSplit.2 with
    | '.' :: r =>
      let fs := splitDigits r
      (some fs.1, fs.2)
    | r => (none, r)
  let fp := fracRest.1.getD []
  if ip = [] ∧ fp = [] then none
  else
    let mantNum : Int := sign * ((digitsToNat ip * 10 ^ fp.length + digitsToNat fp : Nat) : Int)
    let mantDen : Nat := 10 ^ fp.length
    match fracRest.2 with
    | [] => some ⟨mantNum, mantDen⟩
    | c :: r =>
      if c = 'e' ∨ c = 'E' then
        let enegRest : Bool × List Char :=
          match r with
          | '+' :: t => (false, t)
          | '-' :: t => (true, t)
          | t => (false, t)
        let edSplit := splitDigits enegRest.2
        if edSplit.1 = [] ∨ edSplit.2 ≠ [] then none
        else if enegRest.1 then some ⟨mantNum, mantDen * 10 ^ digitsToNat edSplit.1⟩
        else some ⟨mantNum * (10 ^ digitsToNat edSplit.1 : Nat), mantDen⟩
      else none

/-- Embedding of JS `Number(token)` followed by the `Number.isFinite`
test, on whitespace-free tokens: returns the exact rational value of the
token when it is a finite JS numeric literal, and `none` when `Number`
yields `NaN` or an infinity.  The empty token converts to `0`; the
`Infinity` spellings are non-finite; `0x`, `0o` and `0b` prefixes denote
unsigned non-decimal integer literals.  Doubles are modelled as exact
rationals, so literal values are never rounded and never overflow. -/
def jsFiniteNumber (s : String) : Option JsRat :=
  if s = "" then some ⟨0, 1⟩
  else if s = "Infinity" ∨ s = "+Infinity" ∨ s = "-Infinity" then none
  else
    match s.data with
    | '0' :: c :: rest =>
      if c = 'x' ∨ c = 'X' then (parseNatBase 16 rest).map (fun n => ⟨(n : Int), 1⟩)
      else if c = 'o' ∨ c = 'O' then (parseNatBase 8 rest).map (fun n => ⟨(n : Int), 1⟩)
      else if c = 'b' ∨ c = 'B' then (parseNatBase 2 rest).map (fun n => ⟨(n : Int), 1⟩)
      else parseDecimal s.data
    | _ => parseDecimal s.data

/-- The four checker comparison modes (`problem.checker_kind`). -/
inductive CheckerKind where
  | exact
  | trim
  | token
  | float_tolerance
  deriving DecidableEq, Repr

/-- Checker configuration attached to a problem: `checker_kind` (absent
means `exact`), `checker_case_insensitive` (source applies `!!`), and
`checker_float_tolerance` (absent means `1e-6` via `??`). -/
structure CheckerConfig where
  kind : Option CheckerKind
  caseInsensitive : Bool
  floatTolerance : Option JsRat
  deriving DecidableEq, Repr

/-- The default tolerance `1e-6` of `float_tolerance` mode. -/
def defaultTolerance : JsRat := ⟨1, 1000000⟩

/-- The `norm` closure of `handleSubmit`: lower-case both strings when the
problem is flagged case-insensitive, otherwise the identity. -/
def norm (caseInsensitive : Bool) (s : String) : String :=
  if caseInsensitive then jsToLower s else s

/-- Decision of the rational inequality `|x - y| ≤ tol` in the
cross-multiplied integer form (valid whenever the denominators are
positive; see `jsRatAbsDiffLe_iff`). -/
def jsRatAbsDiffLe (x y tol : JsRat) : Bool :=
  decide (|x.num * (y.den : Int) - y.num * (x.den : Int)| * (tol.den : Int)
    ≤ tol.num * ((x.den : Int) * (y.den : Int)))

/-- One token pair of `float_tolerance` mode: when both tokens convert to
finite numbers the pair passes when the absolute difference is within the
tolerance, otherwise the pair passes when the tokens are equal strings. -/
def floatPairOk (tol : JsRat) (a e : String) : Bool :=
  match jsFiniteNumber a, jsFiniteNumber e with
  | some x, some y => jsRatAbsDiffLe x y tol
  | _, _ => a == e

/-- Embedding of the `compare` closure of `handleSubmit` (the checker):
dispatch on the configured mode, defaulting to `exact`. -/
def compare (cfg : CheckerConfig) (actual expected : String) : Bool :=
  let ci := cfg.caseInsensitive
  match cfg.kind.getD CheckerKind.exact with
  | CheckerKind.trim => jsTrim (norm ci actual) == jsTrim (norm ci expected)
  | CheckerKind.token =>
    let aT := jsTrimSplit (norm ci actual)
    let eT := jsTrimSplit (norm ci expected)
    if aT.length ≠ eT.length then false else aT == eT
  | CheckerKind.float_tolerance =>
    let tol := cfg.floatTolerance.getD defaultTolerance
    let aT := jsTrimSplit (norm ci actual)
    let eT := jsTrimSplit (norm ci expected)
    if aT.length ≠ eT.length then false
    else (aT.zip eT).all (fun p => floatPairOk tol p.1 p.2)
  | CheckerKind.exact => norm ci actual == norm ci expected

/-- The specification's reading of one `float_tolerance` token pair, with
the numeric comparison stated over the rational values: when both tokens
parse as finite numbers the pair passes exactly when `|a - b| ≤ tol`,
otherwise exactly when the tokens are string-equal. -/
def floatPairSpec (tol : JsRat) (p : String × String) : Prop :=
  match jsFiniteNumber p.1, jsFiniteNumber p.2 with
  | some x, some y => |x.toRat - y.toRat| ≤ tol.toRat
  | _, _ => p.1 = p.2

/-! ### Rate limiter (`src/hooks/useRateLimit.ts`) -/

/-- Rate limiter configuration. -/
structure RateLimitConfig where
  maxAttempts : Nat
  windowMs : Nat
  cooldownMs : Nat
  deriving DecidableEq, Repr

/-- The default configuration: 2 submissions per one-minute window, with a
one-minute cooldown. -/
def DEFAULT_CONFIG : RateLimitConfig := ⟨2, 60000, 60000⟩

/-- Rate limiter state.  The source keeps `attempts`, `windowStart` and
`cooldownUntil` in a React state record and the last code fingerprint in a
separate ref (`lastCodeHash`); the embedding carries all four together.
Timestamps are milliseconds as naturals. -/
structure RateLimitState where
  attempts : Nat
  windowStart : Nat
  cooldownUntil : Option Nat
  lastCodeHash : Option String
  deriving DecidableEq, Repr

/-- Reduction of an integer into the signed 32-bit range, as applied by
the JS bitwise operators used in `hashCode`. -/
def toInt32 (n : Int) : Int :=
  let m := n % 4294967296
  if m < 2147483648 then m else m - 4294967296

/-- One step of `hashCode`: `hash = ((hash << 5) - hash) + char` followed
by `hash = hash & hash`, which reduces the value to a signed 32-bit
integer. -/
def hashStep (h : Int) (c : Char) : Int :=
  toInt32 (toInt32 (h * 32) - h + (c.toNat : Int))

/-- Digit characters of base-36 numerals, as produced by JS
`Number.prototype.toString(36)`. -/
def base36Digit (n : Nat) : Char :=
  if n < 10 then Char.ofNat (48 + n) else Char.ofNat (87 + n)

/-- Fuel-driven base-36 digit expansion (most significant digit first);
the fuel argument only bounds the recursion depth. -/
def natToBase36Go : Nat → Nat → List Char → List Char
  | 0, _, acc => acc
  | fuel + 1, n, acc =>
    if n < 36 then base36Digit n :: acc
    else natToBase36Go fuel (n / 36) (base36Digit (n % 36) :: acc)

/-- Base-36 numeral of a natural number. -/
def natToBase36 (n : Nat) : String :=
  String.mk (natToBase36Go (n + 1) n [])

/-- Embedding of JS `n.toString(36)` for a signed 32-bit integer value. -/
def int32ToBase36 (n : Int) : String :=
  if n < 0 then "-" ++ natToBase36 n.natAbs else natToBase36 n.toNat

/-- The `hashCode` fingerprint function of `useRateLimit`: a 31-based
rolling hash over the UTF-16 code units, reduced to a signed 32-bit
integer and rendered in base 36. -/
def hashCode (code : String) : String :=
  int32ToBase36 (code.data.foldl hashStep 0)

/-- Result record of `checkRateLimit`: `{allowed, message?, waitTime?}`. -/
structure RateLimitCheck where
  allowed : Bool
  message : Option String
  waitTime : Option Nat
  deriving DecidableEq, Repr

/-- Embedding of JS `Math.ceil(ms / 1000)` for natural inputs. -/
def ceilSeconds (ms : Nat) : Nat :=
  (ms + 999) / 1000

/-- The part of `checkRateLimit` following the cooldown test: the
duplicate-code fingerprint check, the sliding-window reset, and the
attempt-budget check (entering cooldown when exhausted). -/
def checkRateLimitAfterCooldown (cfg : RateLimitConfig) (st : RateLimitState) (now : Nat)
    (code : String) : RateLimitCheck × RateLimitState :=
  if st.lastCodeHash = some (hashCode code) then
    (⟨false, some "Please modify your code before submitting again.", none⟩, st)
  else if now - st.windowStart > cfg.windowMs then
    (⟨true, none, none⟩, ⟨0, now, none, st.lastCodeHash⟩)
  else if st.attempts ≥ cfg.maxAttempts then
    (⟨false, some ("Too many submissions. Please wait " ++ toString (ceilSeconds cfg.cooldownMs) ++ " seconds."),
      some (ceilSeconds cfg.cooldownMs)⟩,
     { st with cooldownUntil := some (now + cfg.cooldownMs) })
  else (⟨true, none, none⟩, st)

/-- Embedding of `checkRateLimit(code)` at current time `now`: check the
cooldown, then the duplicate-code fingerprint, then the sliding window
(resetting it when expired), then the attempt budget (entering cooldown
when exhausted).  Returns the check result together with the successor
state. -/
def checkRateLimit (cfg : RateLimitConfig) (st : RateLimitState) (now : Nat)
    (code : String) : RateLimitCheck × RateLimitState :=
  match st.cooldownUntil with
  | some cu =>
    if now < cu then
      (⟨false, some ("Rate limited. Please wait " ++ toString (ceilSeconds (cu - now)) ++ " seconds."),
        some (ceilSeconds (cu - now))⟩, st)
    else checkRateLimitAfterCooldown cfg st now code
  | none => checkRateLimitAfterCooldown cfg st now code

/-- Embedding of `recordAttempt(code)`: store the fingerprint of the code
and increment the attempt counter. -/
def recordAttempt (st : RateLimitState) (code : String) : RateLimitState :=
  { st with lastCodeHash := some (hashCode code), attempts := st.attempts + 1 }

/-! ### Execution strategies (`src/services/execution/ExecutionStrategy.ts`) -/

/-- The canonical submission status taxonomy (`SubmissionStatus` of
`src/types/index.ts`). -/
inductive SubmissionStatus where
  | pending
  | running
  | accepted
  | wrong_answer
  | time_limit
  | memory_limit
  | runtime_error
  | compile_error
  deriving DecidableEq, Repr

/-- The canonical `ExecutionResult` record.  `runtime` and `memory` carry
exact rational values standing for the JS numbers. -/
structure ExecutionResult where
  success : Bool
  output : Option String
  error : Option String
  runtime : Option ℚ
  memory : Option ℚ
  status : SubmissionStatus
  deriving DecidableEq, Repr

/-- `LanguageConfig` of `src/types/index.ts` (the logical language id and
its backend-specific identifiers). -/
structure LanguageConfig where
  id : String
  name : String
  monacoId : String
  pistonId : String
  judge0Id : Option Int
  extension : String
  defaultCode : String
  deriving DecidableEq, Repr

/-- An `ExecutionRequest` value passed to a strategy. -/
structure ExecutionRequest where
  code : String
  language : LanguageConfig
  input : String
  timeLimit : Option Nat
  memoryLimit : Option Nat
  deriving DecidableEq, Repr

/-- The `compile` part of a Piston response (`{code, stderr, output}`). -/
structure PistonCompile where
  code : Int
  stderr : String
  output : String
  deriving DecidableEq, Repr

/-- The `run` part of a Piston response (`{code, signal, stdout, stderr}`,
with `signal` null or a signal name). -/
structure PistonRun where
  code : Int
  signal : Option String
  stdout : String
  stderr : String
  deriving DecidableEq, Repr

/-- A Piston response body: an optional `compile` section and the
mandatory `run` section, per the documented backend interface. -/
structure PistonResponse where
  compile : Option PistonCompile
  run : PistonRun
  deriving DecidableEq, Repr

/-- Truthiness of a nullable JS string: null and the empty string are
falsy. -/
def strTruthy : Option String → Bool
  | some s => s ≠ ""
  | none => false

/-- Embedding of JS `a || b` on strings: the first operand unless it is
empty. -/
def strOrElse (a b : String) : String :=
  if a = "" then b else a

/-- Classification of the `run` section of a Piston response, applied
once compilation is known to have succeeded: signalled nonzero exit
(SIGKILL meaning time or memory limit), then nonempty non-whitespace
stderr, then accepted. -/
def pistonClassifyRun (run : PistonRun) : ExecutionResult :=
  if run.code ≠ 0 ∧ strTruthy run.signal then
    if run.signal = some "SIGKILL" then
      ⟨false, none, some "Time or memory limit exceeded", none, none, SubmissionStatus.time_limit⟩
    else
      ⟨false, none, some (strOrElse run.stderr "Runtime error"), none, none,
        SubmissionStatus.runtime_error⟩
  else if run.stderr ≠ "" ∧ jsTrim run.stderr ≠ "" then
    ⟨false, some run.stdout, some run.stderr, none, none, SubmissionStatus.runtime_error⟩
  else ⟨true, some run.stdout, none, none, none, SubmissionStatus.accepted⟩

/-- Classification step of `PistonStrategy.execute`.  The network call is
abstracted into its outcome: `Except.error msg` models a thrown fetch or
non-OK-response error (caught and downgraded to a `runtime_error`
result), `Except.ok r` a parsed response body.  Classification follows
the source: compile failure first, then `pistonClassifyRun`. -/
def pistonExecute (_request : ExecutionRequest) (response : Except String PistonResponse) :
    ExecutionResult :=
  match response with
  | Except.error msg => ⟨false, none, some msg, none, none, SubmissionStatus.runtime_error⟩
  | Except.ok r =>
    match r.compile with
    | some c =>
      if c.code ≠ 0 then
        ⟨false, none, some (strOrElse c.stderr c.output), none, none, SubmissionStatus.compile_error⟩
      else pistonClassifyRun r.run
    | none => pistonClassifyRun r.run

/-- A Judge0 response body.  The base64-coded text fields are modelled by
their decoded string values (base64 decoding is a bijection, and a field
decodes to the empty string exactly when the coded field is the empty
string); `statusId` is `result.status?.id`; `time` is the parsed numeric
value of the reported seconds and `memory` the reported kilobytes. -/
structure Judge0Response where
  statusId : Option Int
  compile_output : Option String
  stdout : Option String
  stderr : Option String
  time : Option ℚ
  memory : Option ℚ
  deriving DecidableEq, Repr

/-- Embedding of the JS pattern `field ? atob(field) : fallback` on a
decoded optional base64 field. -/
def j0Text (field : Option String) (fallback : String) : String :=
  match field with
  | some s => if s = "" then fallback else s
  | none => fallback

/-- Classification step of `Judge0Strategy.execute`: a missing language
mapping fails without a backend call; otherwise a transport error becomes
a `runtime_error` result, and the backend status id is mapped to the
canonical taxonomy (6 compile error, 5 time limit, above 6 generic
runtime error, anything else accepted). -/
def judge0Execute (request : ExecutionRequest) (response : Except String Judge0Response) :
    ExecutionResult :=
  if request.language.judge0Id = none then
    ⟨false, none, some ("Language " ++ request.language.name ++ " not supported by Judge0"),
      none, none, SubmissionStatus.compile_error⟩
  else
    match response with
    | Except.error msg => ⟨false, none, some msg, none, none, SubmissionStatus.runtime_error⟩
    | Except.ok r =>
      match r.statusId with
      | some id =>
        if id = 6 then
          ⟨false, none, some (j0Text r.compile_output "Compilation error"), none, none,
            SubmissionStatus.compile_error⟩
        else if id = 5 then
          ⟨false, none, some "Time limit exceeded", r.time.map (fun t => t * 1000), none,
            SubmissionStatus.time_limit⟩
        else if id > 6 then
          ⟨false, none, some (j0Text r.stderr "Runtime error"), none, none,
            SubmissionStatus.runtime_error⟩
        else
          ⟨true, some (j0Text r.stdout ""), none, r.time.map (fun t => t * 1000),
            r.memory.map (fun m => m / 1024), SubmissionStatus.accepted⟩
      | none =>
        ⟨true, some (j0Text r.stdout ""), none, r.time.map (fun t => t * 1000),
          r.memory.map (fun m => m / 1024), SubmissionStatus.accepted⟩

/-- A registered execution strategy, abstracted into its availability
probe outcome and its execution behaviour. -/
structure Strategy where
  name : String
  available : Bool
  run : ExecutionRequest → ExecutionResult

/-- The `ExecutionService` singleton state: the ordered strategy registry
and the cached selected strategy. -/
structure ExecutionService where
  strategies : List Strategy
  currentStrategy : Option Strategy

/-- Embedding of `ExecutionService.selectBestStrategy`: probe the
registered strategies sequentially in registration order and cache the
first available one. -/
def selectBestStrategy (svc : ExecutionService) : Option Strategy × ExecutionService :=
  match svc.strategies.find? (fun s => s.available) with
  | some s => (some s, { svc with currentStrategy := some s })
  | none => (none, svc)

/-- The distinguished result returned when no backend is available. -/
def noBackendResult : ExecutionResult :=
  ⟨false, none, some "No execution backend available", none, none, SubmissionStatus.runtime_error⟩

/-- Embedding of `ExecutionService.execute`: select a strategy when none
is cached; fail fast with `noBackendResult` when none is available;
otherwise delegate to the cached strategy. -/
def serviceExecute (svc : ExecutionService) (request : ExecutionRequest) :
    ExecutionResult × ExecutionService :=
  let svc1 := if svc.currentStrategy.isNone then (selectBestStrategy svc).2 else svc
  match svc1.currentStrategy with
  | none => (noBackendResult, svc1)
  | some s => (s.run request, svc1)

/-! ### Submission orchestrator (`handleSubmit` of the Problem Editor page) -/

/-- `TestCase` of `src/types/index.ts`. -/
structure TestCase where
  id : String
  input : String
  expectedOutput : String
  isHidden : Bool
  deriving DecidableEq, Repr

/-- The transcript line appended when a test case passes:
`✓ Test case N/total passed`, where `N` is the pass counter after its
increment. -/
def passLine (n total : Nat) : String :=
  "✓ Test case " ++ toString n ++ "/" ++ toString total ++ " passed\n"

/-- The transcript line appended when a test case fails the comparison: a
literal expected/actual diff for a visible case, the fixed marker for a
hidden one. -/
def failLine (tc : TestCase) (actualRaw : String) : String :=
  if tc.isHidden then "✗ Hidden test case failed\n"
  else
    "✗ Test case failed\n  Expected: " ++ jsTrim tc.expectedOutput ++ "\n  Got: "
      ++ jsTrim actualRaw ++ "\n"

/-- Outcome of the per-test-case loop of `handleSubmit`: the pass count,
the per-case transcript entries in order, the console error set on a
backend execution failure, and (as instrumentation) the number of
execution-backend calls made. -/
structure JudgeOutcome where
  passed : Nat
  log : List String
  errorMsg : Option String
  execCount : Nat
  deriving DecidableEq, Repr

/-- The per-test-case loop of `handleSubmit` for non-SQL problems, with
the execution backend abstracted into a function from stdin to its
result.  Each case is executed in declared order; a successful execution
is compared with the checker, a pass appends a `passLine` and continues,
a comparison failure appends a `failLine` and stops the loop, and an
execution failure records the error message and stops the loop. -/
def judgeCases (cfg : CheckerConfig) (exec : String → ExecutionResult) (total : Nat) :
    List TestCase → Nat → JudgeOutcome
  | [], passed => ⟨passed, [], none, 0⟩
  | tc :: rest, passed =>
    let result := exec tc.input
    if result.success then
      let actualRaw := result.output.getD ""
      if compare cfg actualRaw tc.expectedOutput then
        let r := judgeCases cfg exec total rest (passed + 1)
        ⟨r.passed, passLine (passed + 1) total :: r.log, r.errorMsg, r.execCount + 1⟩
      else ⟨passed, [failLine tc actualRaw], none, 1⟩
    else ⟨passed, [], some (result.error.getD "Execution failed"), 1⟩

/-- The summary line appended after the loop: celebratory when every case
passed, otherwise the `N/total` tally. -/
def summaryLine (passed total : Nat) : String :=
  if passed = total then
    "\n🎉 All " ++ toString total ++ " test cases passed! Solution accepted."
  else "\n❌ " ++ toString passed ++ "/" ++ toString total ++ " test cases passed."

/-- Aggregate outcome of the submit action for non-SQL problems: the
judged loop outcome plus the final console transcript (initial banner,
per-case entries, summary). -/
structure SubmitOutcome where
  passed : Nat
  total : Nat
  log : List String
  consoleOutput : String
  errorMsg : Option String
  execCount : Nat
  deriving DecidableEq, Repr

/-- Embedding of the judging part of `handleSubmit` for non-SQL problems
(after the rate-limit gate): run the loop over the declared test cases
and append the summary to the accumulated console transcript. -/
def handleSubmitJudge (cfg : CheckerConfig) (exec : String → ExecutionResult)
    (cases : List TestCase) : SubmitOutcome :=
  let total := cases.length
  let r := judgeCases cfg exec total cases 0
  ⟨r.passed, total, r.log,
    "Submitting solution...\n" ++ String.join r.log ++ summaryLine r.passed total,
    r.errorMsg, r.execCount⟩

/-! ### SQL judging adapter

The adapter (`runSql` and `formatRows`) is not part of the source tree:
only its caller `handleSubmit` is.  It is modelled from the
specification. -/

/-- Modelled from the spec: a setup or mutation statement executed by the
SQL adapter, abstracted into row insertion and table clearing against a
single result table (the relational engine itself is out of scope, SQL
text is not parsed). -/
inductive SqlOp where
  | insertRow (row : List String)
  | deleteAll
  deriving DecidableEq, Repr

/-- Modelled from the spec: an in-memory database instance, reduced to
the multiset of rows it holds (kept in insertion order). -/
structure SqlDb where
  rows : List (List String)
  deriving DecidableEq, Repr

/-- Modelled from the spec: a fresh, empty in-memory database instance. -/
def freshDb : SqlDb := ⟨[]⟩

/-- Modelled from the spec: execution of one setup statement. -/
def execOp (db : SqlDb) : SqlOp → SqlDb
  | SqlOp.insertRow row => ⟨db.rows ++ [row]⟩
  | SqlOp.deleteAll => ⟨[]⟩

/-- Modelled from the spec: sequential execution of a setup script. -/
def execOps (db : SqlDb) (ops : List SqlOp) : SqlDb :=
  ops.foldl execOp db

/-- Modelled from the spec: the final query, abstracted into returning
the full result table or its row count. -/
inductive SqlQuery where
  | selectAll
  | countRows
  deriving DecidableEq, Repr

/-- Modelled from the spec: capture of the result set of the final
statement. -/
def runQuery (db : SqlDb) : SqlQuery → List (List String)
  | SqlQuery.selectAll => db.rows
  | SqlQuery.countRows => [[toString db.rows.length]]

/-- Modelled from the spec: the world of a sequence of `runSql`
invocations, recording every database instance ever created so that
instance separation is an explicit fact rather than a modelling
assumption. -/
structure SqlWorld where
  databases : List SqlDb
  deriving DecidableEq, Repr

/-- Modelled from the spec: `runSql({globalSetup, perTestSetup, query})`
allocates a fresh in-memory database instance for this invocation alone,
runs the global setup, then the per-test setup, then the query, and
returns the captured rows. -/
def runSql (w : SqlWorld) (globalSetup perTestSetup : List SqlOp) (query : SqlQuery) :
    List (List String) × SqlWorld :=
  let db := execOps (execOps freshDb globalSetup) perTestSetup
  (runQuery db query, ⟨w.databases ++ [db]⟩)

/-! ### Concrete fixtures

Closed sample values used to instantiate the theorems below on concrete
inputs. -/

/-- A checker configuration in `exact` mode. -/
def sampleCfg : CheckerConfig := ⟨some CheckerKind.exact, false, none⟩

/-- A deterministic execution backend for the fixtures: stdin `"in2"`
produces the output `"mismatch"`, everything else the output `"ok"`. -/
def sampleExec : String → ExecutionResult := fun input =>
  if input = "in2" then ⟨true, some "mismatch", none, none, none, SubmissionStatus.accepted⟩
  else ⟨true, some "ok", none, none, none, SubmissionStatus.accepted⟩

/-- First sample test case (passes under `sampleExec`). -/
def tcase1 : TestCase := ⟨"1", "in1", "ok", false⟩

/-- Second sample test case (fails the comparison under `sampleExec`). -/
def tcase2 : TestCase := ⟨"2", "in2", "ok", false⟩

/-- Third sample test case (never reached in the fixtures). -/
def tcase3 : TestCase := ⟨"3", "in3", "ok", false⟩

/-- A hidden failing test case. -/
def hcase1 : TestCase := ⟨"2", "hin1", "secret1", true⟩

/-- A hidden failing test case differing from `hcase1` only in its input
and expected output. -/
def hcase2 : TestCase := ⟨"2", "hin2", "secret2", true⟩

/-- State after the first allowed check and `recordAttempt` of the
concrete rate-limiter run (codes `a`, `b`, `c` at times 1, 2, 3). -/
def c4w_s1 : RateLimitState :=
  recordAttempt (checkRateLimit DEFAULT_CONFIG ⟨0, 0, none, none⟩ 1 "a").2 "a"

/-- State after the second allowed check and `recordAttempt` of the
concrete rate-limiter run. -/
def c4w_s2 : RateLimitState :=
  recordAttempt (checkRateLimit DEFAULT_CONFIG c4w_s1 2 "b").2 "b"

/-- State after the first allowed check and `recordAttempt` of the
concrete run exhibiting the fingerprint collision (codes `x`, `Aa`,
`BB`). -/
def cx4_s1 : RateLimitState :=
  recordAttempt (checkRateLimit DEFAULT_CONFIG ⟨0, 1000, none, none⟩ 1000 "x").2 "x"

/-- State after the second allowed check and `recordAttempt` of the
collision run. -/
def cx4_s2 : RateLimitState :=
  recordAttempt (checkRateLimit DEFAULT_CONFIG cx4_s1 2000 "Aa").2 "Aa"

/-- A sample language descriptor. -/
def langW : LanguageConfig :=
  ⟨"javascript", "JavaScript", "javascript", "javascript", some 63, "js", ""⟩

/-- A sample execution request. -/
def reqW : ExecutionRequest := ⟨"code", langW, "", none, none⟩

/-- An unavailable sample strategy. -/
def stratA : Strategy := ⟨"Piston", false, fun _ => noBackendResult⟩

/-- An available sample strategy. -/
def stratB : Strategy :=
  ⟨"Judge0", true, fun _ => ⟨true, some "", none, none, none, SubmissionStatus.accepted⟩⟩

/-- A service whose first registered strategy is down and whose second is
up, with no cached binding. -/
def svcW : ExecutionService := ⟨[stratA, stratB], none⟩

/-- A service with a single unavailable strategy and no cached binding. -/
def svcNoneW : ExecutionService := ⟨[stratA], none⟩

/-- A service with a cached strategy binding. -/
def svcCachedW : ExecutionService := ⟨[stratA, stratB], some stratB⟩

/-- A Piston response of a clean run. -/
def pistonOkResp : PistonResponse := ⟨none, ⟨0, none, "out", ""⟩⟩

/-- A Piston response with a nonzero exit code, no signal and
whitespace-only stderr. -/
def pistonQuirkResp : PistonResponse := ⟨none, ⟨1, none, "partial", "  "⟩⟩

/-- A Judge0 response with the accepted status id. -/
def judge0OkResp : Judge0Response := ⟨some 3, none, some "out", none, none, none⟩

end CodeForge

namespace CodeForge

/-! ## Helper lemmas -/

/-- Every rational produced by the decimal literal parser has a positive
denominator. -/
theorem parseDecimal_den_pos (cs : List Char) (x : JsRat) (h : parseDecimal cs = some x) :
    0 < x.den := by
  unfold parseDecimal at h
  simp only [] at h
  split at h
  · exact absurd h (by simp)
  · split at h
    · cases h
      exact pow_pos (by norm_num) _
    · split at h
      · split at h
        · exact absurd h (by simp)
        · split at h
          · cases h
            exact Nat.mul_pos (pow_pos (by norm_num) _) (pow_pos (by norm_num) _)
          · cases h
            exact pow_pos (by norm_num) _
      · exact absurd h (by simp)

/-- Every rational produced by the finite-number conversion has a
positive denominator. -/
theorem jsFiniteNumber_den_pos (s : String) (x : JsRat) (h : jsFiniteNumber s = some x) :
    0 < x.den := by
  unfold jsFiniteNumber at h
  split at h
  · cases h; norm_num
  · split at h
    · exact absurd h (by simp)
    · split at h
      · split at h
        · obtain ⟨n, -, rfl⟩ := Option.map_eq_some'.mp h
          norm_num
        · split at h
          · obtain ⟨n, -, rfl⟩ := Option.map_eq_some'.mp h
            norm_num
          · split at h
            · obtain ⟨n, -, rfl⟩ := Option.map_eq_some'.mp h
              norm_num
            · exact parseDecimal_den_pos _ _ h
      · exact parseDecimal_den_pos _ _ h

/-- The cross-multiplied integer decision `jsRatAbsDiffLe` agrees with
the rational inequality `|x - y| ≤ tol` whenever the denominators are
positive. -/
theorem jsRatAbsDiffLe_iff (x y tol : JsRat) (hx : 0 < x.den) (hy : 0 < y.den)
    (ht : 0 < tol.den) :
    jsRatAbsDiffLe x y tol = true ↔ |x.toRat - y.toRat| ≤ tol.toRat := by
  have hx' : (0 : ℚ) < (x.den : ℚ) := by exact_mod_cast hx
  have hy' : (0 : ℚ) < (y.den : ℚ) := by exact_mod_cast hy
  have ht' : (0 : ℚ) < (tol.den : ℚ) := by exact_mod_cast ht
  rw [jsRatAbsDiffLe, decide_eq_true_iff]
  unfold JsRat.toRat
  rw [div_sub_div _ _ hx'.ne' hy'.ne', abs_div, abs_of_pos (mul_pos hx' hy'),
    div_le_div_iff₀ (mul_pos hx' hy') ht']
  rw [show ((x.den : ℚ) * (y.num : ℚ)) = ((y.num : ℚ) * (x.den : ℚ)) from mul_comm _ _]
  exact_mod_cast Iff.rfl

/-- The Boolean token-pair check of `float_tolerance` mode agrees with
its specification reading `floatPairSpec`. -/
theorem floatPairOk_iff (tol : JsRat) (ht : 0 < tol.den) (a e : String) :
    floatPairOk tol a e = true ↔ floatPairSpec tol (a, e) := by
  unfold floatPairOk floatPairSpec
  cases hA : jsFiniteNumber a <;> cases hE : jsFiniteNumber e <;> simp only []
  · exact beq_iff_eq
  · exact beq_iff_eq
  · exact beq_iff_eq
  · exact jsRatAbsDiffLe_iff _ _ _ (jsFiniteNumber_den_pos _ _ hA)
      (jsFiniteNumber_den_pos _ _ hE) ht

/-- When `pistonClassifyRun` reports success, its output is present and
its error absent. -/
theorem pistonClassifyRun_ok (run : PistonRun) :
    (pistonClassifyRun run).success = true →
    (pistonClassifyRun run).output.isSome = true ∧ (pistonClassifyRun run).error = none := by
  unfold pistonClassifyRun
  split_ifs <;> simp

/-- Replacing a hidden failing case by another hidden failing case leaves
the whole loop outcome unchanged, as long as every earlier case passes. -/
theorem judgeCases_hidden_swap (cfg : CheckerConfig) (exec : String → ExecutionResult)
    (total : Nat) (post : List TestCase) (h1 h2 : TestCase)
    (hh1 : h1.isHidden = true) (hh2 : h2.isHidden = true)
    (h1s : (exec h1.input).success = true)
    (h1c : compare cfg ((exec h1.input).output.getD "") h1.expectedOutput = false)
    (h2s : (exec h2.input).success = true)
    (h2c : compare cfg ((exec h2.input).output.getD "") h2.expectedOutput = false) :
    ∀ (pre : List TestCase) (p : Nat),
      (∀ c ∈ pre, (exec c.input).success = true
        ∧ compare cfg ((exec c.input).output.getD "") c.expectedOutput = true) →
      judgeCases cfg exec total (pre ++ h1 :: post) p
        = judgeCases cfg exec total (pre ++ h2 :: post) p := by
  intro pre
  induction pre with
  | nil =>
    intro p _
    simp only [List.nil_append, judgeCases, h1s, h2s, h1c, h2c, if_true, if_false]
    simp [failLine, hh1, hh2, h1c, h2c]
  | cons c cs ih =>
    intro p hpre
    obtain ⟨hcs, hcc⟩ := hpre c (by simp)
    simp only [List.cons_append, judgeCases, hcs, hcc, if_true, List.append_eq]
    rw [ih (p + 1) (fun q hq => hpre q (by simp [hq]))]

/-! ## Claim theorems -/

/-- C1: when judging a three-case problem where case 1 passes and case 2
fails the comparison, the per-case transcript holds exactly two entries
and no execution-backend call is made for case 3 (exactly two calls are
made in total). -/
theorem c1_early_abort (cfg : CheckerConfig) (exec : String → ExecutionResult)
    (t1 t2 t3 : TestCase)
    (h1s : (exec t1.input).success = true)
    (h1c : compare cfg ((exec t1.input).output.getD "") t1.expectedOutput = true)
    (h2s : (exec t2.input).success = true)
    (h2c : compare cfg ((exec t2.input).output.getD "") t2.expectedOutput = false) :
    (handleSubmitJudge cfg exec [t1, t2, t3]).log.length = 2
    ∧ (handleSubmitJudge cfg exec [t1, t2, t3]).execCount = 2 := by
  simp [handleSubmitJudge, judgeCases, h1s, h1c, h2s, h2c]

/-- Witness for C1 on the concrete fixtures. -/
theorem c1_early_abort_witness :
    (handleSubmitJudge sampleCfg sampleExec [tcase1, tcase2, tcase3]).log.length = 2
    ∧ (handleSubmitJudge sampleCfg sampleExec [tcase1, tcase2, tcase3]).execCount = 2 :=
  c1_early_abort sampleCfg sampleExec tcase1 tcase2 tcase3
    (by decide) (by decide) (by decide) (by decide)

/-- C2: with checker mode `exact` and `caseInsensitive = false`, `compare`
returns `true` exactly when the two strings are equal byte for byte. -/
theorem c2_exact_mode_iff_eq (a b : String) :
    compare ⟨some CheckerKind.exact, false, none⟩ a b = true ↔ a = b := by
  simp [compare, norm]

/-- C3: in `float_tolerance` mode (tolerance defaulting to `1e-6` when
unset) a token-count mismatch is an immediate failure; with matching
token counts the comparison succeeds exactly when every token pair
satisfies `floatPairSpec` (numeric pairs within `|a - b| ≤ tol`, other
pairs string-equal); and the two concrete cases of the claim hold. -/
theorem c3_float_tolerance_semantics (tolOpt : Option JsRat) (a b : String)
    (ht : 0 < (tolOpt.getD defaultTolerance).den) :
    ((jsTrimSplit a).length ≠ (jsTrimSplit b).length →
      compare ⟨some CheckerKind.float_tolerance, false, tolOpt⟩ a b = false)
    ∧ ((jsTrimSplit a).length = (jsTrimSplit b).length →
      (compare ⟨some CheckerKind.float_tolerance, false, tolOpt⟩ a b = true ↔
        ∀ p ∈ (jsTrimSplit a).zip (jsTrimSplit b),
          floatPairSpec (tolOpt.getD defaultTolerance) p))
    ∧ compare ⟨some CheckerKind.float_tolerance, false, none⟩ "1.0" "1.0000001" = true
    ∧ compare ⟨some CheckerKind.float_tolerance, false, none⟩ "1.0" "1.01" = false := by
  refine ⟨?_, ?_, by decide, by decide⟩
  · intro h
    simp only [compare, norm, Option.getD, Bool.false_eq_true, if_false]
    rw [if_pos h]
  · intro h
    simp only [compare, norm, Option.getD, Bool.false_eq_true, if_false]
    rw [if_neg (by simpa using h)]
    rw [List.all_eq_true]
    constructor
    · intro hall p hp
      exact (floatPairOk_iff _ ht p.1 p.2).mp (hall p hp)
    · intro hall p hp
      exact (floatPairOk_iff _ ht p.1 p.2).mpr (hall p hp)

/-- Witness for C3: a token-count mismatch on concrete strings fails. -/
theorem c3_float_tolerance_semantics_witness :
    compare ⟨some CheckerKind.float_tolerance, false, none⟩ "1 2 3" "1 2" = false :=
  (c3_float_tolerance_semantics none "1 2 3" "1 2" (by decide)).1 (by decide)

/-- C4 (counterexample): the claim as stated fails when the distinct
third code collides with the last recorded one under `hashCode`.  With
codes `x`, `Aa`, `BB` (all pairwise distinct strings, `Aa` and `BB`
sharing a fingerprint), the first two checks are allowed and recorded,
no cooldown is pending, the third check is within the window, yet it is
denied with `waitTime = none` and without setting any cooldown. -/
theorem c4_code_distinct_counterexample :
    ("BB" ≠ "Aa")
    ∧ ("Aa" ≠ "x")
    ∧ hashCode "BB" = hashCode "Aa"
    ∧ (checkRateLimit DEFAULT_CONFIG ⟨0, 1000, none, none⟩ 1000 "x").1.allowed = true
    ∧ (checkRateLimit DEFAULT_CONFIG cx4_s1 2000 "Aa").1.allowed = true
    ∧ cx4_s2.cooldownUntil = none
    ∧ (checkRateLimit DEFAULT_CONFIG cx4_s2 3000 "BB").1.allowed = false
    ∧ (checkRateLimit DEFAULT_CONFIG cx4_s2 3000 "BB").1.waitTime = none
    ∧ (checkRateLimit DEFAULT_CONFIG cx4_s2 3000 "BB").2.cooldownUntil = none := by
  decide

/-- C4 (amended): with the default configuration, after two allowed
checks with fingerprint-distinct codes each followed by `recordAttempt`,
a third check within the same window whose code's fingerprint differs
from the last recorded one is denied with a positive wait time and sets
`cooldownUntil` to the current time plus `cooldownMs`. -/
theorem c4_third_call_denied (c1 c2 c3 : String) (t0 t1 t2 t3 : Nat)
    (h12 : hashCode c2 ≠ hashCode c1) (h23 : hashCode c3 ≠ hashCode c2)
    (ht1 : t1 - t0 ≤ 60000) (ht2 : t2 - t0 ≤ 60000) (ht3 : t3 - t0 ≤ 60000) :
    ((checkRateLimit DEFAULT_CONFIG ⟨0, t0, none, none⟩ t1 c1).1.allowed = true)
    ∧ ((checkRateLimit DEFAULT_CONFIG
        (recordAttempt (checkRateLimit DEFAULT_CONFIG ⟨0, t0, none, none⟩ t1 c1).2 c1)
        t2 c2).1.allowed = true)
    ∧ (let s2 := recordAttempt (checkRateLimit DEFAULT_CONFIG
          (recordAttempt (checkRateLimit DEFAULT_CONFIG ⟨0, t0, none, none⟩ t1 c1).2 c1)
          t2 c2).2 c2
       (checkRateLimit DEFAULT_CONFIG s2 t3 c3).1.allowed = false
       ∧ (∃ w, (checkRateLimit DEFAULT_CONFIG s2 t3 c3).1.waitTime = some w ∧ 0 < w)
       ∧ (checkRateLimit DEFAULT_CONFIG s2 t3 c3).2.cooldownUntil
          = some (t3 + DEFAULT_CONFIG.cooldownMs)) := by
  have k1 : checkRateLimit DEFAULT_CONFIG ⟨0, t0, none, none⟩ t1 c1
      = (⟨true, none, none⟩, ⟨0, t0, none, none⟩) := by
    unfold checkRateLimit checkRateLimitAfterCooldown DEFAULT_CONFIG
    simp [Nat.not_lt.mpr ht1]
  have k2 : checkRateLimit DEFAULT_CONFIG ⟨1, t0, none, some (hashCode c1)⟩ t2 c2
      = (⟨true, none, none⟩, ⟨1, t0, none, some (hashCode c1)⟩) := by
    unfold checkRateLimit checkRateLimitAfterCooldown DEFAULT_CONFIG
    simp [Ne.symm h12, Nat.not_lt.mpr ht2]
  have k3 : checkRateLimit DEFAULT_CONFIG ⟨2, t0, none, some (hashCode c2)⟩ t3 c3
      = (⟨false, some ("Too many submissions. Please wait "
            ++ toString (ceilSeconds 60000) ++ " seconds."),
          some (ceilSeconds 60000)⟩,
         ⟨2, t0, some (t3 + 60000), some (hashCode c2)⟩) := by
    unfold checkRateLimit checkRateLimitAfterCooldown DEFAULT_CONFIG
    simp [Ne.symm h23, Nat.not_lt.mpr ht3]
  rw [k1]
  simp only [recordAttempt]
  rw [k2]
  simp only [recordAttempt]
  rw [k3]
  simp [ceilSeconds, DEFAULT_CONFIG]

/-- Witness for the amended C4 on codes `a`, `b`, `c` at times 1, 2, 3. -/
theorem c4_third_call_denied_witness :
    (checkRateLimit DEFAULT_CONFIG ⟨0, 0, none, none⟩ 1 "a").1.allowed = true
    ∧ (checkRateLimit DEFAULT_CONFIG c4w_s1 2 "b").1.allowed = true
    ∧ ((checkRateLimit DEFAULT_CONFIG c4w_s2 3 "c").1.allowed = false
       ∧ (∃ w, (checkRateLimit DEFAULT_CONFIG c4w_s2 3 "c").1.waitTime = some w ∧ 0 < w)
       ∧ (checkRateLimit DEFAULT_CONFIG c4w_s2 3 "c").2.cooldownUntil
          = some (3 + DEFAULT_CONFIG.cooldownMs)) :=
  c4_third_call_denied "a" "b" "c" 0 1 2 3
    (by decide) (by decide) (by decide) (by decide) (by decide)

/-- C5: a `checkRateLimit` call whose code fingerprint equals the one
stored by the latest `recordAttempt` is denied whenever no cooldown is
pending, whatever the attempt count and window state. -/
theorem c5_duplicate_fingerprint_denied (cfg : RateLimitConfig) (st : RateLimitState)
    (now : Nat) (c : String)
    (hcd : ∀ cu, st.cooldownUntil = some cu → cu ≤ now) :
    ((checkRateLimit cfg (recordAttempt st c) now c).1).allowed = false := by
  unfold checkRateLimit recordAttempt
  simp only []
  cases hcu : st.cooldownUntil with
  | none => simp [checkRateLimitAfterCooldown]
  | some cu =>
    have h := hcd cu hcu
    simp [checkRateLimitAfterCooldown, Nat.not_lt.mpr h]

/-- Witness for C5 at an exhausted attempt budget and an expired
window. -/
theorem c5_duplicate_fingerprint_denied_witness :
    ((checkRateLimit DEFAULT_CONFIG
      (recordAttempt ⟨5, 0, some 10, none⟩ "abc") 70001 "abc").1).allowed = false :=
  c5_duplicate_fingerprint_denied DEFAULT_CONFIG ⟨5, 0, some 10, none⟩ 70001 "abc"
    (fun cu h => le_trans (le_of_eq (Option.some.inj h).symm) (by norm_num))

/-- C6: the service probes its registered strategies sequentially in
registration order and caches the first available one; when none is
available an execution request returns the distinguished
`noBackendResult` (status `runtime_error`, error message
`No execution backend available`) instead of throwing; and a cached
binding is used for later requests without reprobing. -/
theorem c6_selection_policy (svc : ExecutionService) (pre post : List Strategy) (s : Strategy)
    (req : ExecutionRequest) :
    (svc.strategies = pre ++ s :: post → (∀ p ∈ pre, p.available = false) → s.available = true →
      selectBestStrategy svc = (some s, { svc with currentStrategy := some s }))
    ∧ ((∀ t ∈ svc.strategies, t.available = false) → svc.currentStrategy = none →
        serviceExecute svc req = (noBackendResult, svc))
    ∧ (∀ str, svc.currentStrategy = some str →
        serviceExecute svc req = (str.run req, svc)) := by
  refine ⟨?_, ?_, ?_⟩
  · intro hstr hpre hs
    unfold selectBestStrategy
    rw [hstr]
    have hfind : ∀ (l : List Strategy), (∀ p ∈ l, p.available = false) →
        (l ++ s :: post).find? (fun t => t.available) = some s := by
      intro l
      induction l with
      | nil => intro _; simp [List.find?, hs]
      | cons p ps ih =>
        intro hl
        simp only [List.cons_append, List.find?]
        rw [hl p (by simp)]
        exact ih (fun q hq => hl q (by simp [hq]))
    rw [hfind pre hpre]
  · intro hall hcur
    unfold serviceExecute selectBestStrategy
    have hfind : svc.strategies.find? (fun t => t.available) = none := by
      rw [List.find?_eq_none]
      intro x hx
      simp [hall x hx]
    rw [hcur]
    simp [hfind, hcur]
  · intro str hcur
    unfold serviceExecute
    simp [hcur]

/-- Witness for C6 on the fixture services. -/
theorem c6_selection_policy_witness :
    selectBestStrategy svcW = (some stratB, { svcW with currentStrategy := some stratB })
    ∧ serviceExecute svcNoneW reqW = (noBackendResult, svcNoneW)
    ∧ serviceExecute svcCachedW reqW = (stratB.run reqW, svcCachedW) :=
  ⟨(c6_selection_policy svcW [stratA] [] stratB reqW).1 rfl
      (fun p hp => by rw [List.mem_singleton] at hp; subst hp; rfl) rfl,
   (c6_selection_policy svcNoneW [] [] stratA reqW).2.1
      (fun t ht => by simp only [svcNoneW, List.mem_singleton] at ht; subst ht; rfl) rfl,
   (c6_selection_policy svcCachedW [] [] stratA reqW).2.2 stratB rfl⟩

/-- C7: substituting the input and expected output of a failing hidden
test case changes nothing in the emitted transcript (the content cannot
leak), provided every earlier case passes and both variants fail; the
entry appended for a failing hidden case is the fixed marker, and the
entry for a failing visible case carries the literal (trimmed) expected
and actual text. -/
theorem c7_hidden_case_no_leak (cfg : CheckerConfig) (exec : String → ExecutionResult)
    (pre post : List TestCase) (h1 h2 : TestCase)
    (hh1 : h1.isHidden = true) (hh2 : h2.isHidden = true)
    (hpre : ∀ c ∈ pre, (exec c.input).success = true
      ∧ compare cfg ((exec c.input).output.getD "") c.expectedOutput = true)
    (h1s : (exec h1.input).success = true)
    (h1c : compare cfg ((exec h1.input).output.getD "") h1.expectedOutput = false)
    (h2s : (exec h2.input).success = true)
    (h2c : compare cfg ((exec h2.input).output.getD "") h2.expectedOutput = false) :
    (handleSubmitJudge cfg exec (pre ++ h1 :: post)).consoleOutput
      = (handleSubmitJudge cfg exec (pre ++ h2 :: post)).consoleOutput
    ∧ (∀ tc a, tc.isHidden = true → failLine tc a = "✗ Hidden test case failed\n")
    ∧ (∀ tc a, tc.isHidden = false →
        failLine tc a = "✗ Test case failed\n  Expected: " ++ jsTrim tc.expectedOutput
          ++ "\n  Got: " ++ jsTrim a ++ "\n") := by
  refine ⟨?_, ?_, ?_⟩
  · have hlen : (pre ++ h1 :: post).length = (pre ++ h2 :: post).length := by simp
    simp only [handleSubmitJudge]
    rw [hlen, judgeCases_hidden_swap cfg exec (pre ++ h2 :: post).length post h1 h2 hh1 hh2
      h1s h1c h2s h2c pre 0 hpre]
  · intro tc a h
    simp [failLine, h]
  · intro tc a h
    simp [failLine, h]

/-- Witness for C7 on the concrete fixtures: swapping the hidden case's
content leaves the transcript unchanged. -/
theorem c7_hidden_case_no_leak_witness :
    (handleSubmitJudge sampleCfg sampleExec ([tcase1] ++ hcase1 :: [tcase3])).consoleOutput
      = (handleSubmitJudge sampleCfg sampleExec ([tcase1] ++ hcase2 :: [tcase3])).consoleOutput :=
  (c7_hidden_case_no_leak sampleCfg sampleExec [tcase1] [tcase3] hcase1 hcase2
    (by decide) (by decide) (by decide) (by decide) (by decide) (by decide) (by decide)).1

/-- C8: every `runSql` invocation runs against its own fresh database
instance: for two sequential calls with the same global setup whose
per-test statements insert one row each, each call's result set is
exactly the global rows plus its own inserted row, and neither contains
the other call's row. -/
theorem c8_sql_isolation (w0 : SqlWorld) (g : List SqlOp) (r1 r2 : List String) (hne : r1 ≠ r2)
    (h1 : r1 ∉ (execOps freshDb g).rows) (h2 : r2 ∉ (execOps freshDb g).rows) :
    (runSql w0 g [SqlOp.insertRow r1] SqlQuery.selectAll).1 = (execOps freshDb g).rows ++ [r1]
    ∧ (runSql (runSql w0 g [SqlOp.insertRow r1] SqlQuery.selectAll).2 g
        [SqlOp.insertRow r2] SqlQuery.selectAll).1 = (execOps freshDb g).rows ++ [r2]
    ∧ r2 ∉ (runSql w0 g [SqlOp.insertRow r1] SqlQuery.selectAll).1
    ∧ r1 ∉ (runSql (runSql w0 g [SqlOp.insertRow r1] SqlQuery.selectAll).2 g
        [SqlOp.insertRow r2] SqlQuery.selectAll).1 := by
  refine ⟨rfl, rfl, ?_, ?_⟩
  · simp only [runSql, execOps, execOp, runQuery, List.foldl, List.mem_append,
      List.mem_singleton]
    push_neg
    exact ⟨h2, Ne.symm hne⟩
  · simp only [runSql, execOps, execOp, runQuery, List.foldl, List.mem_append,
      List.mem_singleton]
    push_neg
    exact ⟨h1, hne⟩

/-- Witness for C8 on a concrete global setup and rows. -/
theorem c8_sql_isolation_witness :
    (runSql ⟨[]⟩ [SqlOp.insertRow ["0"]] [SqlOp.insertRow ["1"]] SqlQuery.selectAll).1
      = (execOps freshDb [SqlOp.insertRow ["0"]]).rows ++ [["1"]]
    ∧ (runSql (runSql ⟨[]⟩ [SqlOp.insertRow ["0"]] [SqlOp.insertRow ["1"]]
          SqlQuery.selectAll).2 [SqlOp.insertRow ["0"]] [SqlOp.insertRow ["2"]]
          SqlQuery.selectAll).1
      = (execOps freshDb [SqlOp.insertRow ["0"]]).rows ++ [["2"]]
    ∧ ["2"] ∉ (runSql ⟨[]⟩ [SqlOp.insertRow ["0"]] [SqlOp.insertRow ["1"]]
        SqlQuery.selectAll).1
    ∧ ["1"] ∉ (runSql (runSql ⟨[]⟩ [SqlOp.insertRow ["0"]] [SqlOp.insertRow ["1"]]
        SqlQuery.selectAll).2 [SqlOp.insertRow ["0"]] [SqlOp.insertRow ["2"]]
        SqlQuery.selectAll).1 :=
  c8_sql_isolation ⟨[]⟩ [SqlOp.insertRow ["0"]] ["1"] ["2"]
    (by decide) (by decide) (by decide)

/-- C9: for any request and any backend outcome, a successful
`ExecutionResult` of either strategy has a defined output and no error. -/
theorem c9_result_wellformed (reqP reqJ : ExecutionRequest)
    (respP : Except String PistonResponse) (respJ : Except String Judge0Response) :
    ((pistonExecute reqP respP).success = true →
      (pistonExecute reqP respP).output.isSome = true ∧ (pistonExecute reqP respP).error = none)
    ∧ ((judge0Execute reqJ respJ).success = true →
      (judge0Execute reqJ respJ).output.isSome = true
        ∧ (judge0Execute reqJ respJ).error = none) := by
  constructor
  · intro h
    cases respP with
    | error msg => simp [pistonExecute] at h
    | ok r =>
      cases hc : r.compile with
      | none =>
        simp only [pistonExecute, hc] at h ⊢
        exact pistonClassifyRun_ok r.run h
      | some c =>
        by_cases hcc : c.code ≠ 0
        · simp only [pistonExecute, hc, if_pos hcc] at h
          simp at h
        · simp only [pistonExecute, hc, if_neg hcc] at h ⊢
          exact pistonClassifyRun_ok r.run h
  · intro h
    by_cases hl : reqJ.language.judge0Id = none
    · simp [judge0Execute, hl] at h
    · cases respJ with
      | error msg => simp [judge0Execute, hl] at h
      | ok r =>
        cases hs : r.statusId with
        | none => simp [judge0Execute, hl, hs]
        | some id =>
          simp only [judge0Execute, if_neg hl, hs] at h ⊢
          split_ifs at h ⊢
          simp_all

/-- Witness for C9 on concrete successful responses of both
strategies. -/
theorem c9_result_wellformed_witness :
    ((pistonExecute reqW (Except.ok pistonOkResp)).output.isSome = true
      ∧ (pistonExecute reqW (Except.ok pistonOkResp)).error = none)
    ∧ ((judge0Execute reqW (Except.ok judge0OkResp)).output.isSome = true
      ∧ (judge0Execute reqW (Except.ok judge0OkResp)).error = none) :=
  ⟨(c9_result_wellformed reqW reqW (Except.ok pistonOkResp) (Except.ok judge0OkResp)).1
      (by decide),
   (c9_result_wellformed reqW reqW (Except.ok pistonOkResp) (Except.ok judge0OkResp)).2
      (by decide)⟩

/-- C10: a Piston response whose compilation succeeded, whose run exited
nonzero without a signal and whose stderr trims to the empty string is
classified as an accepted successful run with the run's stdout as
output. -/
theorem c10_nonzero_exit_accepted (req : ExecutionRequest) (r : PistonResponse)
    (hcompile : r.compile = none ∨ ∃ c, r.compile = some c ∧ c.code = 0)
    (_hcode : r.run.code ≠ 0) (hsig : r.run.signal = none)
    (hstderr : jsTrim r.run.stderr = "") :
    pistonExecute req (Except.ok r)
      = ⟨true, some r.run.stdout, none, none, none, SubmissionStatus.accepted⟩ := by
  have hclass : pistonClassifyRun r.run
      = ⟨true, some r.run.stdout, none, none, none, SubmissionStatus.accepted⟩ := by
    unfold pistonClassifyRun
    rw [if_neg (by simp [hsig, strTruthy])]
    rw [if_neg (by simp [hstderr])]
  unfold pistonExecute
  rcases hcompile with h | ⟨c, h, hc⟩
  · simp [h, hclass]
  · simp [h, hc, hclass]

/-- Witness for C10 on a concrete quirky response: exit code 1, no
signal, whitespace-only stderr. -/
theorem c10_nonzero_exit_accepted_witness :
    pistonExecute reqW (Except.ok pistonQuirkResp)
      = ⟨true, some "partial", none, none, none, SubmissionStatus.accepted⟩ :=
  c10_nonzero_exit_accepted reqW pistonQuirkResp (Or.inl rfl)
    (by decide) rfl (by decide)

end CodeForge
